import Mathlib

/-!
Verification of the `ls` directory-listing utility (src/src/main.rs, Rust)
as a shallow embedding in Lean.

The filesystem, the identity database (uid/gid to name) and the local
clock/timezone formatter are external collaborators of the program; they are
modelled as an abstract oracle structure `FS`.  All program logic
(`main` / `list_files` / `file_info` / `get_mode_str` / `get_file_type_str`)
is translated from the source.  The Linux (`cfg(target_os = "linux")`)
branch is the one modelled, as it is the platform with POSIX metadata.
Terminal colouring (`.blue().bold()`, `.red()`) is cosmetic and omitted.
-/

/-- File type as distinguished by `std::fs::FileType`
(`is_dir` / `is_symlink`, everything else is "other/regular"). -/
inductive FileType where
  | regular
  | directory
  | symlink
  | other
deriving DecidableEq, Repr

instance : BEq FileType := ⟨fun a b => decide (a = b)⟩

/-- A non-following metadata snapshot, the fields of `std::fs::Metadata`
(plus the unix `MetadataExt` fields) that the program reads:
`len`, `modified`, `mode`, `nlink`, `uid`, `gid` and the file type. -/
structure FileMeta where
  ftype : FileType
  size : Nat
  modified : Nat
  mode : Nat
  nlink : Nat
  uid : Nat
  gid : Nat
deriving DecidableEq, Repr

/-- The external world the program consults:
* `symlinkMeta` models `fs::symlink_metadata` (non-following stat;
  `none` is the io error case),
* `followMeta` models `fs::metadata` (following stat), the call behind
  `Path::is_dir`,
* `readDir` models `fs::read_dir` returning the child *names*
  (`none` is the io error case),
* `readLink` models `fs::read_link` (the immediate one-hop target),
* `userName` / `groupName` model `users::get_user_by_uid` /
  `users::get_group_by_gid`,
* `fmtTime` models `get_modified_str`'s chrono local-timezone
  `"%b %d %H:%M"` rendering of an epoch-seconds timestamp. -/
structure FS where
  symlinkMeta : String → Option FileMeta
  followMeta : String → Option FileMeta
  readDir : String → Option (List String)
  readLink : String → Option String
  userName : Nat → Option String
  groupName : Nat → Option String
  fmtTime : Nat → String

/-- `Path::is_dir`: follows symlinks (`fs::metadata`), `false` on error. -/
def FS.isDir (fs : FS) (path : String) : Bool :=
  match fs.followMeta path with
  | some m => m.ftype == FileType.directory
  | none => false

/-- `Path::is_symlink`: non-following (`fs::symlink_metadata`), `false` on error. -/
def FS.isSymlink (fs : FS) (path : String) : Bool :=
  match fs.symlinkMeta path with
  | some m => m.ftype == FileType.symlink
  | none => false

/-- The parsed command-line flags (struct `Args` of the source; the
positional `files` list is passed separately). -/
structure Args where
  all : Bool
  directory : Bool
  long : Bool
  not_human_readable : Bool
deriving Repr

/-- A single quote character, written via its code point. -/
def quoteCh : String := String.mk [Char.ofNat 39]

/-- Split a character list at every `/` (the separator-splitting
underlying Rust path components). -/
def splitSlash : List Char → List (List Char)
  | [] => [[]]
  | c :: cs =>
    if c == '/' then [] :: splitSlash cs
    else
      match splitSlash cs with
      | [] => [[c]]
      | h :: t => (c :: h) :: t

/-- `Path::file_name().unwrap_or_default()`: the last normal path
component; `none` (here `""`) when the path ends in `..` or has no
normal component.  Rust path components drop empty segments and `.`. -/
def fileName (path : String) : String :=
  let comps := (splitSlash path.data).filter (fun c => !(c == []) && !(c == ['.']))
  match comps.getLast? with
  | some c => if c == ['.', '.'] then "" else String.mk c
  | none => ""

/-- Rust `str::starts_with('.')` with a `char` pattern: the first
character is a dot. -/
def startsWithDot (filename : String) : Bool :=
  match filename.data with
  | [] => false
  | c :: _ => c == '.'

/-- The display name computed at the top of `file_info`
(src/src/main.rs:87-96): the literals `.` and `..` kept as-is,
otherwise the final path component. -/
def displayName (path : String) : String :=
  if path == "." then "."
  else if path == ".." then ".."
  else fileName path

/-- The hidden-entry filter condition of src/src/main.rs:100:
`!args.all && filename != "." && filename != ".." && filename.starts_with('.')`. -/
def isHiddenSkip (all : Bool) (filename : String) : Bool :=
  !all && !(filename == ".") && !(filename == "..") && startsWithDot filename

/-- The trailing suffix of src/src/main.rs:105:
`if path.is_dir() { "/" } else { "" }` — note `Path::is_dir` follows
symlinks. -/
def entrySuffix (fs : FS) (path : String) : String :=
  if fs.isDir path then "/" else ""

/-- `get_mode_str` (src/src/main.rs:158-175): nine pushes testing the
POSIX permission bits 0o400 down to 0o001. -/
def get_mode_str (mode : Nat) : String :=
  let mode_str := ""
  let mode_str := mode_str.push (if mode &&& 0o400 > 0 then 'r' else '-')
  let mode_str := mode_str.push (if mode &&& 0o200 > 0 then 'w' else '-')
  let mode_str := mode_str.push (if mode &&& 0o100 > 0 then 'x' else '-')
  let mode_str := mode_str.push (if mode &&& 0o040 > 0 then 'r' else '-')
  let mode_str := mode_str.push (if mode &&& 0o020 > 0 then 'w' else '-')
  let mode_str := mode_str.push (if mode &&& 0o010 > 0 then 'x' else '-')
  let mode_str := mode_str.push (if mode &&& 0o004 > 0 then 'r' else '-')
  let mode_str := mode_str.push (if mode &&& 0o002 > 0 then 'w' else '-')
  let mode_str := mode_str.push (if mode &&& 0o001 > 0 then 'x' else '-')
  mode_str

/-- `get_file_type_str` (src/src/main.rs:177-185): `d` for a directory,
`l` for a symlink, `-` otherwise, read off the (non-following) metadata. -/
def get_file_type_str (metadata : FileMeta) : String :=
  if metadata.ftype == FileType.directory then "d"
  else if metadata.ftype == FileType.symlink then "l"
  else "-"

/-- Modelled from the spec: the size scaling done by the external
`byte_unit` crate (`Byte::get_appropriate_unit(true)`), which is not part
of this repository.  Spec: "byte count scaled to the largest unit keeping
the displayed value ≥ 1" — this is the exponent of the chosen binary unit. -/
def humanExp (bytes : Nat) : Nat :=
  if 1024 ^ 5 ≤ bytes then 5
  else if 1024 ^ 4 ≤ bytes then 4
  else if 1024 ^ 3 ≤ bytes then 3
  else if 1024 ^ 2 ≤ bytes then 2
  else if 1024 ^ 1 ≤ bytes then 1
  else 0

/-- Binary unit abbreviations (B, KiB, MiB, GiB, TiB, PiB). -/
def unitAbbrev : Nat → String
  | 0 => "B"
  | 1 => "KiB"
  | 2 => "MiB"
  | 3 => "GiB"
  | 4 => "TiB"
  | _ => "PiB"

/-- Two decimal digits of a value below 100, zero padded. -/
def twoDigits (n : Nat) : String :=
  if n < 10 then "0" ++ Nat.repr n else Nat.repr n

/-- Modelled from the spec: the human-readable rendering produced by the
external `byte_unit` crate (`get_appropriate_unit(true).to_string()`),
which is not part of this repository.  Spec: the byte count is scaled to
the largest binary unit keeping the displayed value ≥ 1, shown with a
fixed-precision (two digit) fractional part, e.g. `"1.50 KiB"`. -/
def humanSize (bytes : Nat) : String :=
  let k := humanExp bytes
  if k = 0 then Nat.repr bytes ++ " B"
  else
    let cent := bytes * 100 / 1024 ^ k
    Nat.repr (cent / 100) ++ "." ++ twoDigits (cent % 100) ++ " " ++ unitAbbrev k

/-- The size string of src/src/main.rs:112-117: exact decimal byte count
when `not_human_readable`, human-scaled (spec-modelled `byte_unit`
behaviour) otherwise. -/
def formatSize (bytes : Nat) (exact : Bool) : String :=
  if exact then Nat.repr bytes else humanSize bytes

/-- The `match get_user_by_uid(..)` of src/src/main.rs:140-143: the
resolved user name, or the literal `"Unknown"` when there is no mapping. -/
def lookupUser (fs : FS) (uid : Nat) : String :=
  match fs.userName uid with
  | some user => user
  | none => "Unknown"

/-- The `match get_group_by_gid(..)` of src/src/main.rs:144-147. -/
def lookupGroup (fs : FS) (gid : Nat) : String :=
  match fs.groupName gid with
  | some group => group
  | none => "Unknown"

/-- Rust `format!` padding `{:8}`: left aligned, space filled to the
minimum width. -/
def padRight (w : Nat) (s : String) : String :=
  s ++ String.mk (List.replicate (w - s.length) ' ')

/-- Rust `format!` padding `{:>10}`: right aligned, space filled. -/
def padLeft (w : Nat) (s : String) : String :=
  String.mk (List.replicate (w - s.length) ' ') ++ s

/-- The long-format line of src/src/main.rs:149-152:
`"{}{} {} {:8} {:8} {:>10} {} {}{}{}"` applied to file type, mode,
nlink, user, group, size, modified, filename, suffix and symlink target. -/
def longLine (fs : FS) (args : Args) (path : String) (m : FileMeta)
    (target_file : String) : String :=
  get_file_type_str m ++ get_mode_str m.mode ++ " " ++ Nat.repr m.nlink ++ " " ++
  padRight 8 (lookupUser fs m.uid) ++ " " ++ padRight 8 (lookupGroup fs m.gid) ++ " " ++
  padLeft 10 (formatSize m.size args.not_human_readable) ++ " " ++
  fs.fmtTime m.modified ++ " " ++
  displayName path ++ entrySuffix fs path ++ target_file

/-- The io-error text attached by `.context(format!("cannot acces '{}'", ..))`
at src/src/main.rs:98 (the typo is the source's). -/
def cannotAccessMsg (filename : String) : String :=
  "cannot acces " ++ quoteCh ++ filename ++ quoteCh

/-- Stands in for the OS-generated io error propagated by the bare `?` on
`fs::read_link(path)` at src/src/main.rs:123 (the source attaches no
custom context there; only that it is an error matters). -/
def readLinkErrMsg (path : String) : String :=
  "failed to read link " ++ path

/-- `file_info` (src/src/main.rs:86-156): prints at most one line for one
entry.  `Except.ok lines` is the list of printed lines (empty when the
hidden filter skips the entry), `Except.error` the propagated `anyhow`
error.  The single `println!` happens last in the source, so on error
nothing is printed, which the all-or-nothing `Except` reflects. -/
def file_info (fs : FS) (args : Args) (path : String) :
    Except String (List String) :=
  let filename := displayName path
  match fs.symlinkMeta path with
  | none => Except.error (cannotAccessMsg filename)
  | some metadata =>
    if isHiddenSkip args.all filename then
      Except.ok []
    else
      let sfx := entrySuffix fs path
      if !args.long then
        Except.ok [filename ++ sfx]
      else
        match (if fs.isSymlink path then
                 (fs.readLink path).map (fun t => " -> " ++ t)
               else some "") with
        | none => Except.error (readLinkErrMsg path)
        | some target_file =>
          Except.ok [longLine fs args path metadata target_file]

/-- Byte-order comparison on the code points of two character lists:
UTF-8 byte order on valid strings coincides with code-point order, which
is the `Ord` Rust's `sort_unstable` uses on the name part of these paths. -/
def listCharLe : List Char → List Char → Bool
  | [], _ => true
  | _ :: _, [] => false
  | a :: as, b :: bs =>
    if a.toNat < b.toNat then true
    else if b.toNat < a.toNat then false
    else listCharLe as bs

/-- The path comparison used for `sort_unstable` on `PathBuf`s, modelled
on the underlying strings. -/
def strLe (a b : String) : Bool := listCharLe a.data b.data

/-- Insert into a `strLe`-sorted list, keeping it sorted. -/
def insertSorted (x : String) : List String → List String
  | [] => [x]
  | y :: ys => if strLe x y then x :: y :: ys else y :: insertSorted x ys

/-- `sort_unstable()` as used at src/src/main.rs:50 and :71, modelled by
an insertion sort over the same order.  Because `strLe` is a total and
antisymmetric order (proved below), every correct sort of a list is the
same list, so the choice of algorithm is immaterial to the model. -/
def sortPaths : List String → List String
  | [] => []
  | x :: xs => insertSorted x (sortPaths xs)

/-- `Path::join` as used by `DirEntry::path()`: the directory joined with
the child name by a separator. -/
def joinPath (dir name : String) : String := dir ++ "/" ++ name

/-- The sorted full child paths built at src/src/main.rs:66-71:
`read_dir` entries mapped to their paths, then `sort_unstable`ed.
(`filter_map(|entry| entry.ok())` drops per-entry iteration errors;
the model's `readDir` already yields the surviving names.) -/
def childEntries (dir : String) (names : List String) : List String :=
  sortPaths (names.map (joinPath dir))

/-- Sequential `file_info` over the children of one directory
(the `for path in entries` loop, src/src/main.rs:73-75): returns the
lines printed before any failure, and the first error if one occurred.
A child's error stops the loop; lines of earlier children remain. -/
def runChildren (fs : FS) (args : Args) : List String → List String × Option String
  | [] => ([], none)
  | p :: ps =>
    match file_info fs args p with
    | Except.error e => ([], some e)
    | Except.ok ls =>
      let rest := runChildren fs args ps
      (ls ++ rest.1, rest.2)

/-- One iteration of the `for filename in &args.files` loop of
`list_files` (src/src/main.rs:62-78): a directory (per the following
`is_dir` test) with `!args.directory` prints its `"<path>:"` header and
its sorted children; anything else goes through `file_info` directly.
The header is printed before `read_dir` is attempted, so it survives a
read failure. -/
def processFile (fs : FS) (args : Args) (filename : String) :
    List String × Option String :=
  if fs.isDir filename && !args.directory then
    match fs.readDir filename with
    | none => ([filename ++ ":"], some ("Failed to read dir " ++ filename))
    | some names =>
      let r := runChildren fs args (childEntries filename names)
      ((filename ++ ":") :: r.1, r.2)
  else
    match file_info fs args filename with
    | Except.ok ls => (ls, none)
    | Except.error e => ([], some e)

/-- `list_files` (src/src/main.rs:61-82) over an explicit file list:
printed lines so far plus the first error; the `?` inside the loop stops
all processing at the first failing target. -/
def list_files (fs : FS) (args : Args) : List String → List String × Option String
  | [] => ([], none)
  | f :: rest =>
    let r := processFile fs args f
    match r.2 with
    | some e => (r.1, some e)
    | none =>
      let r2 := list_files fs args rest
      (r.1 ++ r2.1, r2.2)

/-- The observable outcome of one run: stdout lines, stderr lines and the
process exit code. -/
structure RunOutcome where
  out : List String
  err : List String
  exitCode : Nat
deriving Repr

/-- `main` (src/src/main.rs:38-56): default the file list to `["."]` when
empty, sort it, run `list_files`; on error print
`"ls - error: <description>"` to stderr and exit 1, else exit 0. -/
def runLs (fs : FS) (args : Args) (files : List String) : RunOutcome :=
  let files := if files.isEmpty then ["."] else files
  let files := sortPaths files
  match list_files fs args files with
  | (ls, none) => ⟨ls, [], 0⟩
  | (ls, some e) => ⟨ls, ["ls - error: " ++ e], 1⟩

/-! ### Concrete fixtures used by witnesses and counterexamples -/

/-- Metadata of a demo directory. -/
def metaDir : FileMeta := ⟨FileType.directory, 4096, 100, 0o755, 2, 0, 0⟩

/-- Metadata of a demo regular file. -/
def metaFile : FileMeta := ⟨FileType.regular, 1536, 100, 0o644, 1, 1000, 1000⟩

/-- Metadata of a demo symlink (the link object itself). -/
def metaLink : FileMeta := ⟨FileType.symlink, 1, 100, 0o777, 1, 1000, 1000⟩

/-- A small demo filesystem: a directory `d` with children `f.txt` and
`.hidden`, and a symlink `link` whose target is the directory `d`. -/
def demoFS : FS where
  symlinkMeta p :=
    if p == "d" then some metaDir
    else if p == "d/f.txt" then some metaFile
    else if p == "d/.hidden" then some metaFile
    else if p == "link" then some metaLink
    else none
  followMeta p :=
    if p == "d" then some metaDir
    else if p == "d/f.txt" then some metaFile
    else if p == "d/.hidden" then some metaFile
    else if p == "link" then some metaDir
    else none
  readDir p := if p == "d" || p == "link" then some ["f.txt", ".hidden"] else none
  readLink p := if p == "link" then some "d" else none
  userName u := if u == 0 then some "root" else none
  groupName g := if g == 0 then some "root" else none
  fmtTime _ := "Jan 01 00:00"

/-- Flags: no options at all (plain `ls`). -/
def argsShort : Args := ⟨false, false, false, false⟩

/-- Flags: `-a`. -/
def argsShortAll : Args := ⟨true, false, false, false⟩

/-- Flags: `-a -l`. -/
def argsLongAll : Args := ⟨true, false, true, false⟩

/-- Flags: `-a -l -n`. -/
def argsLongAllExact : Args := ⟨true, false, true, true⟩

/-! ### Helper lemmas -/

/-- A power-of-two mask test is positive exactly when the bit is set. -/
lemma and_two_pow_pos (m i : Nat) : 0 < m &&& 2 ^ i ↔ m.testBit i = true := by
  rw [Nat.and_two_pow]
  cases hb : m.testBit i <;> simp [Nat.pos_pow_of_pos]

/-- The letter the permission string shows at position `i` when the bit
is set (`r`, `w`, `x` cycling through owner, group, other). -/
def permLetter (i : Nat) : Char :=
  if i % 3 = 0 then 'r' else if i % 3 = 1 then 'w' else 'x'

/-- The nine characters of `get_mode_str`, as bit tests. -/
lemma get_mode_str_data (m : Nat) :
    (get_mode_str m).data =
      [if m.testBit 8 then 'r' else '-',
       if m.testBit 7 then 'w' else '-',
       if m.testBit 6 then 'x' else '-',
       if m.testBit 5 then 'r' else '-',
       if m.testBit 4 then 'w' else '-',
       if m.testBit 3 then 'x' else '-',
       if m.testBit 2 then 'r' else '-',
       if m.testBit 1 then 'w' else '-',
       if m.testBit 0 then 'x' else '-'] := by
  have h8 : (m &&& 256 > 0) ↔ m.testBit 8 = true := by simpa using and_two_pow_pos m 8
  have h7 : (m &&& 128 > 0) ↔ m.testBit 7 = true := by simpa using and_two_pow_pos m 7
  have h6 : (m &&& 64 > 0) ↔ m.testBit 6 = true := by simpa using and_two_pow_pos m 6
  have h5 : (m &&& 32 > 0) ↔ m.testBit 5 = true := by simpa using and_two_pow_pos m 5
  have h4 : (m &&& 16 > 0) ↔ m.testBit 4 = true := by simpa using and_two_pow_pos m 4
  have h3 : (m &&& 8 > 0) ↔ m.testBit 3 = true := by simpa using and_two_pow_pos m 3
  have h2 : (m &&& 4 > 0) ↔ m.testBit 2 = true := by simpa using and_two_pow_pos m 2
  have h1 : (m &&& 2 > 0) ↔ m.testBit 1 = true := by simpa using and_two_pow_pos m 1
  have h0 : (m &&& 1 > 0) ↔ m.testBit 0 = true := by simpa using and_two_pow_pos m 0
  simp only [get_mode_str, String.push, h8, h7, h6, h5, h4, h3, h2, h1, h0]
  rfl

/-- C6: For every 32-bit mode value, the permission formatter returns
exactly 9 characters in fixed `rwxrwxrwx` order (owner read/write/execute,
then group, then other), each position holding its letter iff the
corresponding POSIX permission bit (0o400 = bit 8 down to 0o001 = bit 0)
is set and `-` otherwise. -/
theorem C6_mode_string (mode : Nat) (hm : mode < 2 ^ 32) :
    (get_mode_str mode).length = 9 ∧
    ∀ i, i < 9 →
      (get_mode_str mode).data.getD i ' ' =
        (if mode.testBit (8 - i) then permLetter i else '-') := by
  constructor
  · show (get_mode_str mode).data.length = 9
    rw [get_mode_str_data]
    rfl
  · intro i hi
    interval_cases i <;>
      simp [get_mode_str_data, permLetter]

/-- Witness for C6 at the concrete mode `0o754`. -/
theorem C6_witness :
    (get_mode_str 0o754).length = 9 ∧
    (get_mode_str 0o754).data.getD 1 ' ' = 'w' := by
  refine ⟨(C6_mode_string 0o754 (by norm_num)).1, ?_⟩
  have h := (C6_mode_string 0o754 (by norm_num)).2 1 (by norm_num)
  simpa using h

/-- C7: The size string equals the exact decimal byte count when
`not_human_readable` is set; otherwise the byte count is scaled to the
largest binary unit for which the scaled value is at least 1 (so the
displayed value is ≥ 1 and below the next unit threshold); 1536 bytes
formats as exactly `"1536"` in exact mode and `"1.50 KiB"` in
human-readable mode.  (The human-readable side is settled against the
spec-modelled `humanSize`, since the scaling lives in the external
`byte_unit` crate, outside this repository.) -/
theorem C7_size_format :
    (∀ b : Nat, formatSize b true = Nat.repr b) ∧
    formatSize 1536 true = "1536" ∧
    formatSize 1536 false = "1.50 KiB" ∧
    (∀ b : Nat, 1 ≤ b → 1024 ^ humanExp b ≤ b ∧
      (humanExp b < 5 → b < 1024 ^ (humanExp b + 1))) := by
  refine ⟨fun b => rfl, rfl, by decide, ?_⟩
  intro b hb
  by_cases h5 : 1024 ^ 5 ≤ b
  · have hk : humanExp b = 5 := by unfold humanExp; rw [if_pos h5]
    rw [hk]
    exact ⟨h5, by omega⟩
  by_cases h4 : 1024 ^ 4 ≤ b
  · have hk : humanExp b = 4 := by unfold humanExp; rw [if_neg h5, if_pos h4]
    rw [hk]
    exact ⟨h4, fun _ => by norm_num at h5 ⊢; omega⟩
  by_cases h3 : 1024 ^ 3 ≤ b
  · have hk : humanExp b = 3 := by unfold humanExp; rw [if_neg h5, if_neg h4, if_pos h3]
    rw [hk]
    exact ⟨h3, fun _ => by norm_num at h4 ⊢; omega⟩
  by_cases h2 : 1024 ^ 2 ≤ b
  · have hk : humanExp b = 2 := by
      unfold humanExp; rw [if_neg h5, if_neg h4, if_neg h3, if_pos h2]
    rw [hk]
    exact ⟨h2, fun _ => by norm_num at h3 ⊢; omega⟩
  by_cases h1 : 1024 ^ 1 ≤ b
  · have hk : humanExp b = 1 := by
      unfold humanExp; rw [if_neg h5, if_neg h4, if_neg h3, if_neg h2, if_pos h1]
    rw [hk]
    exact ⟨h1, fun _ => by norm_num at h2 ⊢; omega⟩
  · have hk : humanExp b = 0 := by
      unfold humanExp; rw [if_neg h5, if_neg h4, if_neg h3, if_neg h2, if_neg h1]
    rw [hk]
    exact ⟨by simpa using hb, fun _ => by norm_num at h1 ⊢; omega⟩

/-- Witness for C7 at the concrete byte count 1536. -/
theorem C7_witness :
    formatSize 1536 true = "1536" ∧ 1024 ^ humanExp 1536 ≤ 1536 := by
  exact ⟨C7_size_format.2.1, (C7_size_format.2.2.2 1536 (by norm_num)).1⟩

/-- C4: When `all` is false and the entry's metadata is obtainable, the
entry is skipped silently (no output line, no error — `Except.ok []`)
exactly when its display name starts with `.` and is neither of the
literal names `.` and `..`; every surviving entry is not silently
dropped (in short format it prints exactly its one name line).  The
routine is `file_info`, which handles directory children and explicitly
named top-level targets alike. -/
theorem C4_hidden_filter (fs : FS) (args : Args) (path : String) (m : FileMeta)
    (hm : fs.symlinkMeta path = some m) (hall : args.all = false) :
    (∀ n : String, isHiddenSkip false n = true ↔
        (startsWithDot n = true ∧ n ≠ "." ∧ n ≠ "..")) ∧
    (isHiddenSkip args.all (displayName path) = true →
        file_info fs args path = Except.ok []) ∧
    (isHiddenSkip args.all (displayName path) = false →
        file_info fs args path ≠ Except.ok []) ∧
    (args.long = false → isHiddenSkip args.all (displayName path) = false →
        file_info fs args path =
          Except.ok [displayName path ++ entrySuffix fs path]) := by
  refine ⟨?_, ?_, ?_, ?_⟩
  · intro n
    simp [isHiddenSkip]
    tauto
  · intro h
    simp [file_info, hm, h]
  · intro h
    simp only [file_info, hm, h]
    by_cases hl : args.long
    · simp only [hl, Bool.not_true]
      split
      · simp_all
      · split <;> simp
    · simp [hl]
  · intro hl h
    simp [file_info, hm, h, hl]

/-- Witness for C4: the hidden child `d/.hidden` of the demo filesystem
is silently skipped without `-a`. -/
theorem C4_witness :
    file_info demoFS argsShort "d/.hidden" = Except.ok [] := by
  exact (C4_hidden_filter demoFS argsShort "d/.hidden" metaFile rfl rfl).2.1 (by decide)

/-- C5: A path whose non-following metadata cannot be obtained is a
terminal error for the run: `file_info` yields the error naming the
display name, no output line is produced, and `main` prints the
`"ls - error:"` diagnostic on stderr and exits nonzero.  (The `isDir`
hypothesis records that a stat-less path is not expandable as a
directory, which holds of any real filesystem.) -/
theorem C5_missing (fs : FS) (args : Args) (path : String)
    (hm : fs.symlinkMeta path = none) (hd : fs.isDir path = false) :
    file_info fs args path = Except.error (cannotAccessMsg (displayName path)) ∧
    runLs fs args [path] =
      ⟨[], ["ls - error: " ++ cannotAccessMsg (displayName path)], 1⟩ := by
  have h1 : file_info fs args path =
      Except.error (cannotAccessMsg (displayName path)) := by
    simp [file_info, hm]
  refine ⟨h1, ?_⟩
  simp [runLs, sortPaths, list_files, processFile, hd, h1]

/-- Witness for C5 at the nonexistent path `missing` of the demo
filesystem. -/
theorem C5_witness :
    runLs demoFS argsShort ["missing"] =
      ⟨[], ["ls - error: " ++ cannotAccessMsg (displayName "missing")], 1⟩ := by
  exact (C5_missing demoFS argsShort "missing" rfl rfl).2

/-- C9: A numeric uid (resp. gid) with no mapping in the identity
database degrades to the literal `"Unknown"` in the owner (resp. group)
field and is never an error: under the same hypotheses the entry still
prints its line (shown for the long format, whose line embeds
`lookupUser` / `lookupGroup` through `longLine`). -/
theorem C9_unknown_identity (fs : FS) (args : Args) (path : String) (m : FileMeta)
    (hm : fs.symlinkMeta path = some m)
    (hns : fs.isSymlink path = false)
    (hh : isHiddenSkip args.all (displayName path) = false) :
    (fs.userName m.uid = none → lookupUser fs m.uid = "Unknown") ∧
    (fs.groupName m.gid = none → lookupGroup fs m.gid = "Unknown") ∧
    (∃ line, file_info fs args path = Except.ok [line]) ∧
    (args.long = true →
      file_info fs args path = Except.ok [longLine fs args path m ""]) := by
  refine ⟨?_, ?_, ?_, ?_⟩
  · intro h
    simp [lookupUser, h]
  · intro h
    simp [lookupGroup, h]
  · by_cases hl : args.long
    · exact ⟨longLine fs args path m "", by simp [file_info, hm, hh, hns, hl]⟩
    · exact ⟨displayName path ++ entrySuffix fs path, by simp [file_info, hm, hh, hl]⟩
  · intro hl
    simp [file_info, hm, hh, hns, hl]

/-- Witness for C9: uid/gid 1000 have no mapping in the demo identity
database, yet `d/f.txt` prints its long line with `"Unknown"` fields. -/
theorem C9_witness :
    lookupUser demoFS metaFile.uid = "Unknown" ∧
    file_info demoFS argsLongAll "d/f.txt" =
      Except.ok [longLine demoFS argsLongAll "d/f.txt" metaFile ""] := by
  refine ⟨?_, ?_⟩
  · exact (C9_unknown_identity demoFS argsLongAll "d/f.txt" metaFile rfl rfl (by decide)).1 rfl
  · exact (C9_unknown_identity demoFS argsLongAll "d/f.txt" metaFile rfl rfl (by decide)).2.2.2 rfl

/-- A filesystem with a directory `locked` whose contents cannot be
enumerated. -/
def brokenFS : FS where
  symlinkMeta p := if p == "locked" then some metaDir else none
  followMeta p := if p == "locked" then some metaDir else none
  readDir _ := none
  readLink _ := none
  userName _ := none
  groupName _ := none
  fmtTime _ := "Jan 01 00:00"

/-- Counterexample to C1 as stated: on the demo filesystem the entry
`link` is a symlink (its non-following metadata is not a directory), yet
short format prints it with the trailing `/` suffix, because the suffix
test `path.is_dir()` (src/src/main.rs:105) follows the symlink to its
directory target. -/
theorem C1_counterexample :
    ¬ (∀ (fs : FS) (args : Args) (path : String) (m : FileMeta),
        fs.symlinkMeta path = some m → m.ftype ≠ FileType.directory →
        file_info fs args path ≠ Except.ok [displayName path ++ "/"]) := by
  intro h
  exact h demoFS argsShortAll "link" metaLink rfl (by decide) rfl

/-- C1 (amended): the printed trailing suffix is `/` exactly when the
path's *followed* (symlink-dereferencing) metadata indicates a
directory — so a symlink whose target is a directory also receives `/` —
and is empty otherwise; the same `entrySuffix` term is what both the
short line and the long line (via `longLine`) append after the name. -/
theorem C1_amended_suffix (fs : FS) (args : Args) (path : String) (m : FileMeta)
    (hm : fs.symlinkMeta path = some m)
    (hh : isHiddenSkip args.all (displayName path) = false) :
    (entrySuffix fs path = "/" ↔ fs.isDir path = true) ∧
    (entrySuffix fs path = "" ↔ fs.isDir path = false) ∧
    (args.long = false →
      file_info fs args path =
        Except.ok [displayName path ++ entrySuffix fs path]) ∧
    (args.long = true → fs.isSymlink path = false →
      file_info fs args path = Except.ok [longLine fs args path m ""]) := by
  refine ⟨?_, ?_, ?_, ?_⟩
  · unfold entrySuffix
    cases hd : fs.isDir path <;> simp
  · unfold entrySuffix
    cases hd : fs.isDir path <;> simp
  · intro hl
    simp [file_info, hm, hh, hl]
  · intro hl hns
    simp [file_info, hm, hh, hl, hns]

/-- Witness for the amended C1 at the symlink-to-directory `link`. -/
theorem C1_amended_witness :
    entrySuffix demoFS "link" = "/" ∧
    file_info demoFS argsShortAll "link" =
      Except.ok [displayName "link" ++ entrySuffix demoFS "link"] := by
  refine ⟨?_, ?_⟩
  · exact (C1_amended_suffix demoFS argsShortAll "link" metaLink rfl (by decide)).1.mpr rfl
  · exact (C1_amended_suffix demoFS argsShortAll "link" metaLink rfl (by decide)).2.2.1 rfl

/-- C2: If enumerating a requested directory's contents fails, the whole
run aborts with an error naming the failing path: only that directory's
header line was printed, none of its entries appear, no later top-level
target is processed, and `main` exits nonzero with the `"ls - error:"`
diagnostic. -/
theorem C2_dir_read_failure (fs : FS) (args : Args) (f : String)
    (rest : List String)
    (hd : fs.isDir f = true) (hnd : args.directory = false)
    (hr : fs.readDir f = none) :
    list_files fs args (f :: rest) =
      ([f ++ ":"], some ("Failed to read dir " ++ f)) ∧
    runLs fs args [f] =
      ⟨[f ++ ":"], ["ls - error: " ++ ("Failed to read dir " ++ f)], 1⟩ := by
  have hp : processFile fs args f =
      ([f ++ ":"], some ("Failed to read dir " ++ f)) := by
    simp [processFile, hd, hnd, hr]
  refine ⟨?_, ?_⟩
  · simp [list_files, hp]
  · simp [runLs, sortPaths, list_files, hp]

/-- Witness for C2 at the unreadable directory `locked`. -/
theorem C2_witness :
    list_files brokenFS argsShort ["locked"] =
      (["locked" ++ ":"], some ("Failed to read dir " ++ "locked")) := by
  exact (C2_dir_read_failure brokenFS argsShort "locked" [] rfl rfl rfl).1

/-- C3: A symlink entry in long format gets type glyph `l`; its mode,
link count, owner, group and size in the printed line all come from `m`,
the symlink's own non-following metadata (never the target's); the line
ends with `" -> <target>"` for the immediate one-hop target; and if
reading the link target fails, `file_info` propagates an error that
terminates the run. -/
theorem C3_symlink_long (fs : FS) (args : Args) (path : String) (m : FileMeta)
    (hm : fs.symlinkMeta path = some m) (hl : m.ftype = FileType.symlink)
    (hlong : args.long = true)
    (hh : isHiddenSkip args.all (displayName path) = false) :
    get_file_type_str m = "l" ∧
    (∀ tgt, fs.readLink path = some tgt →
      file_info fs args path =
        Except.ok [longLine fs args path m (" -> " ++ tgt)]) ∧
    (fs.readLink path = none →
      file_info fs args path = Except.error (readLinkErrMsg path)) := by
  have hsym : fs.isSymlink path = true := by simp [FS.isSymlink, hm, hl]
  refine ⟨?_, ?_, ?_⟩
  · simp [get_file_type_str, hl]
  · intro tgt htgt
    simp [file_info, hm, hh, hlong, hsym, htgt]
  · intro htgt
    simp [file_info, hm, hh, hlong, hsym, htgt]

/-- Witness for C3 at the demo symlink `link` with target `d`. -/
theorem C3_witness :
    file_info demoFS argsLongAll "link" =
      Except.ok [longLine demoFS argsLongAll "link" metaLink (" -> " ++ "d")] := by
  exact (C3_symlink_long demoFS argsLongAll "link" metaLink rfl rfl rfl
    (by decide)).2.1 "d" rfl

/-- C10: The expansion test for a top-level path follows symlinks
(`Path::is_dir`, src/src/main.rs:63): a path whose own metadata is a
symlink but whose followed metadata is a directory is, with `directory`
false, expanded — the `"<path>:"` header is printed and the target
directory's sorted children are listed — instead of being printed as a
single entry. -/
theorem C10_symlink_expansion (fs : FS) (args : Args) (f : String)
    (msym mtgt : FileMeta) (names : List String)
    (hs : fs.symlinkMeta f = some msym) (hsl : msym.ftype = FileType.symlink)
    (hf : fs.followMeta f = some mtgt) (hd : mtgt.ftype = FileType.directory)
    (hnd : args.directory = false) (hr : fs.readDir f = some names) :
    processFile fs args f =
      ((f ++ ":") :: (runChildren fs args (childEntries f names)).1,
       (runChildren fs args (childEntries f names)).2) := by
  have hdir : fs.isDir f = true := by simp [FS.isDir, hf, hd]
  simp [processFile, hdir, hnd, hr]

/-- Witness for C10 at the demo symlink `link` pointing at directory `d`. -/
theorem C10_witness :
    processFile demoFS argsShortAll "link" =
      (("link" ++ ":") ::
        (runChildren demoFS argsShortAll (childEntries "link" ["f.txt", ".hidden"])).1,
       (runChildren demoFS argsShortAll (childEntries "link" ["f.txt", ".hidden"])).2) := by
  exact C10_symlink_expansion demoFS argsShortAll "link" metaLink metaDir
    ["f.txt", ".hidden"] rfl rfl rfl rfl rfl rfl

/-- One comparison step of `listCharLe`, unfolded. -/
lemma listCharLe_cons (a b : Char) (as bs : List Char) :
    listCharLe (a :: as) (b :: bs) = true ↔
      (a.toNat < b.toNat ∨ (a.toNat = b.toNat ∧ listCharLe as bs = true)) := by
  simp only [listCharLe]
  by_cases h1 : a.toNat < b.toNat
  · simp [h1]
  · by_cases h2 : b.toNat < a.toNat
    · simp [h1, h2]
      omega
    · have he : a.toNat = b.toNat := by omega
      simp [h1, h2, he]

/-- `listCharLe` is total. -/
lemma listCharLe_total : ∀ as bs : List Char,
    listCharLe as bs = true ∨ listCharLe bs as = true
  | [], bs => Or.inl (by simp [listCharLe])
  | a :: as, [] => Or.inr (by simp [listCharLe])
  | a :: as, b :: bs => by
    rw [listCharLe_cons, listCharLe_cons]
    rcases Nat.lt_trichotomy a.toNat b.toNat with h | h | h
    · exact Or.inl (Or.inl h)
    · rcases listCharLe_total as bs with r | r
      · exact Or.inl (Or.inr ⟨h, r⟩)
      · exact Or.inr (Or.inr ⟨h.symm, r⟩)
    · exact Or.inr (Or.inl h)

/-- `listCharLe` is transitive. -/
lemma listCharLe_trans : ∀ as bs cs : List Char,
    listCharLe as bs = true → listCharLe bs cs = true → listCharLe as cs = true
  | [], _, _ => by simp [listCharLe]
  | a :: as, [], cs => by simp [listCharLe]
  | a :: as, b :: bs, [] => by
    intro _ h2
    simp [listCharLe] at h2
  | a :: as, b :: bs, c :: cs => by
    rw [listCharLe_cons, listCharLe_cons, listCharLe_cons]
    rintro (h1 | ⟨e1, r1⟩) (h2 | ⟨e2, r2⟩)
    · exact Or.inl (by omega)
    · exact Or.inl (by omega)
    · exact Or.inl (by omega)
    · exact Or.inr ⟨by omega, listCharLe_trans as bs cs r1 r2⟩

/-- `strLe` is transitive. -/
lemma strLe_trans (a b c : String) :
    strLe a b = true → strLe b c = true → strLe a c = true :=
  listCharLe_trans a.data b.data c.data

/-- `strLe` is total. -/
lemma strLe_total (a b : String) : strLe a b = true ∨ strLe b a = true :=
  listCharLe_total a.data b.data

/-- Inserting into a list is a permutation of consing onto it. -/
lemma insertSorted_perm (x : String) : ∀ l : List String,
    List.Perm (insertSorted x l) (x :: l)
  | [] => List.Perm.refl _
  | y :: ys => by
    unfold insertSorted
    by_cases h : strLe x y
    · rw [if_pos h]
    · rw [if_neg h]
      exact ((insertSorted_perm x ys).cons y).trans (List.Perm.swap x y ys)

/-- Inserting into a sorted list keeps it sorted. -/
lemma insertSorted_sorted (x : String) : ∀ l : List String,
    l.Pairwise (fun a b => strLe a b = true) →
    (insertSorted x l).Pairwise (fun a b => strLe a b = true)
  | [], _ => by simp [insertSorted]
  | y :: ys, h => by
    unfold insertSorted
    rcases List.pairwise_cons.mp h with ⟨hy, hys⟩
    by_cases hxy : strLe x y
    · rw [if_pos hxy]
      refine List.pairwise_cons.mpr ⟨?_, h⟩
      intro z hz
      rcases List.mem_cons.mp hz with rfl | hz2
      · exact hxy
      · exact strLe_trans x y z hxy (hy z hz2)
    · rw [if_neg hxy]
      have hyx : strLe y x = true := (strLe_total x y).resolve_left hxy
      refine List.pairwise_cons.mpr ⟨?_, insertSorted_sorted x ys hys⟩
      intro z hz
      rcases List.mem_cons.mp ((insertSorted_perm x ys).mem_iff.mp hz) with rfl | hz2
      · exact hyx
      · exact hy z hz2

/-- `sortPaths` permutes its input. -/
lemma sortPaths_perm : ∀ l : List String, List.Perm (sortPaths l) l
  | [] => List.Perm.refl _
  | x :: xs =>
    (insertSorted_perm x (sortPaths xs)).trans ((sortPaths_perm xs).cons x)

/-- `sortPaths` sorts. -/
lemma sortPaths_sorted : ∀ l : List String,
    (sortPaths l).Pairwise (fun a b => strLe a b = true)
  | [] => by simp [sortPaths]
  | x :: xs => insertSorted_sorted x (sortPaths xs) (sortPaths_sorted xs)

/-- C8: Output appears in sorted order.  `sortPaths` (the model of
`sort_unstable`) always produces a `strLe`-sorted permutation of its
input: the top-level `args.files` are sorted by `runLs` before
processing (`runLs` processes exactly `sortPaths files` when the file
list is nonempty), an expanded directory's children are listed in sorted
order of their joined paths (`childEntries`), and the spec's example
collation `["b", "A", "a10", "a2"]` sorts to `["A", "a10", "a2", "b"]`. -/
theorem C8_sorted_output (fs : FS) (args : Args) (files : List String)
    (dir : String) (names : List String) :
    (sortPaths files).Pairwise (fun a b => strLe a b = true) ∧
    List.Perm (sortPaths files) files ∧
    (childEntries dir names).Pairwise (fun a b => strLe a b = true) ∧
    List.Perm (childEntries dir names) (names.map (joinPath dir)) ∧
    (fs.isDir dir = true → args.directory = false →
      fs.readDir dir = some names →
      processFile fs args dir =
        ((dir ++ ":") :: (runChildren fs args (childEntries dir names)).1,
         (runChildren fs args (childEntries dir names)).2)) ∧
    (files ≠ [] → runLs fs args files =
      match list_files fs args (sortPaths files) with
      | (ls, none) => ⟨ls, [], 0⟩
      | (ls, some e) => ⟨ls, ["ls - error: " ++ e], 1⟩) ∧
    sortPaths ["b", "A", "a10", "a2"] = ["A", "a10", "a2", "b"] := by
  refine ⟨?_, ?_, ?_, ?_, ?_, ?_, ?_⟩
  · exact sortPaths_sorted files
  · exact sortPaths_perm files
  · exact sortPaths_sorted (names.map (joinPath dir))
  · exact sortPaths_perm (names.map (joinPath dir))
  · intro hd hnd hr
    simp [processFile, hd, hnd, hr]
  · intro hne
    have : files.isEmpty = false := by
      cases files
      · exact absurd rfl hne
      · rfl
    simp [runLs, this]
  · decide

/-- Witness for C8: the example collation, and the sorted listing of the
demo directory `d`. -/
theorem C8_witness :
    sortPaths ["b", "A", "a10", "a2"] = ["A", "a10", "a2", "b"] ∧
    processFile demoFS argsShort "d" =
      (("d" ++ ":") ::
        (runChildren demoFS argsShort (childEntries "d" ["f.txt", ".hidden"])).1,
       (runChildren demoFS argsShort (childEntries "d" ["f.txt", ".hidden"])).2) := by
  refine ⟨(C8_sorted_output demoFS argsShort [] "d" []).2.2.2.2.2.2, ?_⟩
  exact (C8_sorted_output demoFS argsShort [] "d"
    ["f.txt", ".hidden"]).2.2.2.2.1 rfl rfl rfl
